import Mathlib

/-!
Shallow embedding of the analytics core of the `dynamic-dashboard` repository
(sales aggregation, company enrichment, product velocity, period comparison
and the forecasting engine), together with proofs settling the frozen claims
about its specification.

Modelling conventions:
* JavaScript numbers are modelled as exact rationals (`ℚ`); `Math.sqrt` is
  modelled by `sqrtQ` (exact on perfect squares, and every claim below only
  exercises it at perfect-square arguments — in fact at `0`);
  `Math.round` is modelled by `roundJS` (round half towards positive
  infinity, exactly JavaScript's behaviour).
* ISO `YYYY-MM-DD` date strings are modelled as day numbers (`ℤ`): string
  comparison of ISO dates coincides with numeric comparison of day numbers,
  and the `Date`/`setDate` arithmetic in the source is exactly day-number
  arithmetic.
* A JavaScript `Map` is modelled as an insertion-ordered association list;
  `bumpG` reproduces the ubiquitous `get`-or-default / `set` accumulator
  pattern.  A JavaScript `Set` is modelled as an insertion-ordered
  duplicate-free list (`jsSetList`).
* `Array.prototype.sort` is stable (ES2019); all comparators in the source
  are total preorders, for which a stable sort is unique, so it is modelled
  by `List.insertionSort`, which Mathlib shows is stable and sorted.
* A function whose JavaScript original can throw on some input is modelled
  with an `Option` result that is `none` exactly on the throwing inputs.
-/

/-- Association-list lookup; models JavaScript `Map.prototype.get`. -/
def lookupA {K A : Type} [DecidableEq K] (m : List (K × A)) (k : K) : Option A :=
  (m.find? (fun p => decide (p.1 = k))).map (·.2)

/-- Models the `const e = map.get(k) || d; map.set(k, f e)` accumulator
pattern on a JavaScript `Map` (insertion-ordered, keys unique). -/
def bumpG {K A : Type} [DecidableEq K] (k : K) (f : A → A) (d : A) :
    List (K × A) → List (K × A)
  | [] => [(k, f d)]
  | (k', v) :: rest => if k' = k then (k', f v) :: rest else (k', v) :: bumpG k f d rest

/-- Auxiliary accumulator for `jsSetList`. -/
def dedupAux {K : Type} [DecidableEq K] (seen : List K) : List K → List K
  | [] => []
  | x :: xs => if x ∈ seen then dedupAux seen xs else x :: dedupAux (x :: seen) xs

/-- Models `Array.from(new Set(l))`: first occurrences, insertion order. -/
def jsSetList {K : Type} [DecidableEq K] (l : List K) : List K :=
  dedupAux [] l

/-- Models `Math.sqrt` on the rationals: exact on perfect squares (every
claim below only evaluates it at `0`); `Math.sqrt` of a negative is `NaN`,
which is unreachable in the source (arguments are variances). -/
def sqrtQ (q : ℚ) : ℚ :=
  if q ≤ 0 then 0 else (Nat.sqrt q.num.toNat : ℚ) / (Nat.sqrt q.den : ℚ)

/-- Models `Math.round`: round half towards positive infinity. -/
def roundJS (q : ℚ) : ℤ :=
  ⌊q + 1/2⌋

/-- Models `Math.round(q * 100) / 100` (round to two decimal places). -/
def round2 (q : ℚ) : ℚ :=
  (roundJS (q * 100) : ℚ) / 100

/-! ### Data model (`src/sales-dashboard/src/types/index.ts`) -/

/-- One line item of a daily extract (`SalesRecord`). -/
structure SalesRecord where
  HSNCODE : String
  ITNAME : String
  QTY : ℚ
  TAXBLEAMT : ℚ
  GST : ℚ
  company : Option String := none
deriving DecidableEq, Repr

/-- One ingested daily file (`DailySales`); `dtype` models the `type` field
(`'PS' | 'FS'`), dates are day numbers. -/
structure DailySales where
  date : ℤ
  dtype : String
  records : List SalesRecord
  totalAmount : ℚ
  totalQuantity : ℚ
deriving DecidableEq, Repr

/-- Product-level aggregate (`ProductSales`). -/
structure ProductSales where
  productName : String
  totalQty : ℚ
  totalAmount : ℚ
  avgPrice : ℚ
  company : Option String := none
deriving DecidableEq, Repr

/-- Company-level aggregate (`CompanySales`). -/
structure CompanySales where
  companyName : String
  totalAmount : ℚ
  totalQuantity : ℚ
  productCount : ℕ
  products : List ProductSales
deriving DecidableEq, Repr

/-! ### Aggregation engine (`src/sales-dashboard/src/utils/dataLoader.ts`) -/

/-- One record's update of the product accumulator map: key `ITNAME`,
value `(qty, amount)`; models lines 85-93 of `dataLoader.ts`. -/
def aggStep (m : List (String × (ℚ × ℚ))) (r : SalesRecord) : List (String × (ℚ × ℚ)) :=
  bumpG r.ITNAME (fun e => (e.1 + r.QTY, e.2 + r.TAXBLEAMT)) (0, 0) m

/-- The fully accumulated product map of `aggregateByProduct`. -/
def productMapL (salesData : List DailySales) : List (String × (ℚ × ℚ)) :=
  salesData.foldl (fun m daily => daily.records.foldl aggStep m) []

/-- Descending-by-amount comparator used by `aggregateByProduct` /
`aggregateByCompany` (`(a, b) => b.totalAmount - a.totalAmount`). -/
def amtGE (a b : ProductSales) : Prop := b.totalAmount ≤ a.totalAmount

instance : DecidableRel amtGE := fun a b => inferInstanceAs (Decidable (_ ≤ _))

instance : IsTotal ProductSales amtGE := ⟨fun a b => le_total b.totalAmount a.totalAmount⟩

instance : IsTrans ProductSales amtGE := ⟨fun _ _ _ h1 h2 => le_trans h2 h1⟩

/-- `aggregateByProduct` (`dataLoader.ts` lines 82-103). -/
def aggregateByProduct (salesData : List DailySales) : List ProductSales :=
  List.insertionSort amtGE
    ((productMapL salesData).map (fun p =>
      { productName := p.1
        totalQty := p.2.1
        totalAmount := p.2.2
        avgPrice := p.2.2 / p.2.1 }))

/-- `getTotalSales` (`dataLoader.ts` lines 118-120, a reduce-add). -/
def getTotalSales (salesData : List DailySales) : ℚ :=
  (salesData.map (·.totalAmount)).sum

/-- `getTotalQuantity` (`dataLoader.ts` lines 122-124). -/
def getTotalQuantity (salesData : List DailySales) : ℚ :=
  (salesData.map (·.totalQuantity)).sum

/-- The company key of a record: `record.company || 'Unknown'` (JavaScript
`||`, so an empty-string company also falls back to `'Unknown'`). -/
def companyKey (r : SalesRecord) : String :=
  match r.company with
  | some c => if c = "" then "Unknown" else c
  | none => "Unknown"

/-- Per-company accumulator of `aggregateByCompany`: running amount and
quantity plus the per-product sub-map. -/
structure CompAcc where
  amount : ℚ
  qty : ℚ
  products : List (String × (ℚ × ℚ))
deriving DecidableEq, Repr

/-- One record's update of the company accumulator map
(`dataLoader.ts` lines 141-158). -/
def compStep (m : List (String × CompAcc)) (r : SalesRecord) : List (String × CompAcc) :=
  bumpG (companyKey r)
    (fun e =>
      { amount := e.amount + r.TAXBLEAMT
        qty := e.qty + r.QTY
        products := bumpG r.ITNAME (fun p => (p.1 + r.QTY, p.2 + r.TAXBLEAMT)) (0, 0) e.products })
    ⟨0, 0, []⟩ m

/-- The fully accumulated company map of `aggregateByCompany`. -/
def companyMapL (salesData : List DailySales) : List (String × CompAcc) :=
  salesData.foldl (fun m daily => daily.records.foldl compStep m) []

/-- Descending-by-amount comparator on company aggregates. -/
def compAmtGE (a b : CompanySales) : Prop := b.totalAmount ≤ a.totalAmount

instance : DecidableRel compAmtGE := fun a b => inferInstanceAs (Decidable (_ ≤ _))

instance : IsTotal CompanySales compAmtGE := ⟨fun a b => le_total b.totalAmount a.totalAmount⟩

instance : IsTrans CompanySales compAmtGE := ⟨fun _ _ _ h1 h2 => le_trans h2 h1⟩

/-- `aggregateByCompany` (`dataLoader.ts` lines 138-179). -/
def aggregateByCompany (salesData : List DailySales) : List CompanySales :=
  List.insertionSort compAmtGE
    ((companyMapL salesData).map (fun p =>
      { companyName := p.1
        totalAmount := p.2.amount
        totalQuantity := p.2.qty
        productCount := p.2.products.length
        products :=
          List.insertionSort amtGE
            (p.2.products.map (fun q =>
              { productName := q.1
                totalQty := q.2.1
                totalAmount := q.2.2
                avgPrice := q.2.2 / q.2.1
                company := some p.1 })) }))

/-! ### Company enrichment (`companyMapper.ts`, `dataLoader.ts` 127-136) -/

/-- `CompanyMapper.normalizeProductName`: lowercase then trim. -/
def normalizeProductName (name : String) : String :=
  name.toLower.trim

/-- `CompanyMapper.getCompanyForProduct`: look the normalized name up in the
product-to-company table (the table's keys were normalized the same way when
it was built). -/
def getCompanyForProduct (table : List (String × String)) (productName : String) :
    Option String :=
  lookupA table (normalizeProductName productName)

/-- The per-record effect of `enrichWithCompanyData`: the source sets
`record.company` only when the lookup result is truthy (defined and not the
empty string). -/
def enrichRecord (table : List (String × String)) (r : SalesRecord) : SalesRecord :=
  match getCompanyForProduct table r.ITNAME with
  | some c => if c = "" then r else { r with company := some c }
  | none => r

/-- `enrichWithCompanyData` (`dataLoader.ts` lines 127-136); the source
mutates records in place, modelled as returning the updated batch list. -/
def enrichWithCompanyData (table : List (String × String)) (salesData : List DailySales) :
    List DailySales :=
  salesData.map (fun daily => { daily with records := daily.records.map (enrichRecord table) })

/-! ### Generic lemmas about the accumulator pattern -/

theorem sum_map_bumpG {K A : Type} [DecidableEq K] (g : A → ℚ) (k : K) (f : A → A)
    (d : A) (c : ℚ) (hf : ∀ v, g (f v) = g v + c) (hd : g d = 0) :
    ∀ m : List (K × A),
      ((bumpG k f d m).map (fun p => g p.2)).sum = (m.map (fun p => g p.2)).sum + c := by
  intro m
  induction m with
  | nil => simp [bumpG, hf, hd]
  | cons p rest ih =>
    obtain ⟨k', v⟩ := p
    by_cases h : k' = k
    · simp [bumpG, h, hf]
      ring
    · simp [bumpG, h, ih]
      ring

theorem sum_map_foldl_bump {K A R : Type} [DecidableEq K] (key : R → K) (upd : R → A → A)
    (ini : R → A) (g : A → ℚ) (amt : R → ℚ)
    (hupd : ∀ r v, g (upd r v) = g v + amt r) (hini : ∀ r, g (ini r) = 0) :
    ∀ (l : List R) (m : List (K × A)),
      ((l.foldl (fun m r => bumpG (key r) (upd r) (ini r) m) m).map (fun p => g p.2)).sum
        = (m.map (fun p => g p.2)).sum + (l.map amt).sum := by
  intro l
  induction l with
  | nil => simp
  | cons r rest ih =>
    intro m
    simp only [List.foldl_cons, List.map_cons, List.sum_cons]
    rw [ih, sum_map_bumpG g (key r) (upd r) (ini r) (amt r) (hupd r) (hini r)]
    ring

theorem foldl_records_flatten {M : Type} (step : M → SalesRecord → M) :
    ∀ (s : List DailySales) (m : M),
      s.foldl (fun acc daily => daily.records.foldl step acc) m
        = (s.flatMap (·.records)).foldl step m := by
  intro s
  induction s with
  | nil => simp
  | cons d rest ih => intro m; simp [List.flatMap_cons, List.foldl_append, ih]

theorem sum_map_flatMap {X A : Type} (f : X → List A) (g : A → ℚ) (l : List X) :
    ((l.flatMap f).map g).sum = (l.map (fun x => ((f x).map g).sum)).sum := by
  induction l with
  | nil => simp
  | cons x rest ih => simp [List.flatMap_cons, ih]

theorem sum_map_insertionSort {A : Type} (r : A → A → Prop) [DecidableRel r]
    (g : A → ℚ) (l : List A) :
    ((List.insertionSort r l).map g).sum = (l.map g).sum :=
  ((List.perm_insertionSort r l).map g).sum_eq

theorem sum_amount_productMapL (s : List DailySales) :
    ((productMapL s).map (fun p => p.2.2)).sum
      = ((s.flatMap (·.records)).map (·.TAXBLEAMT)).sum := by
  unfold productMapL
  rw [foldl_records_flatten aggStep]
  have h := sum_map_foldl_bump (fun r : SalesRecord => r.ITNAME)
    (fun r e => (e.1 + r.QTY, e.2 + r.TAXBLEAMT)) (fun _ => ((0 : ℚ), (0 : ℚ)))
    (fun e => e.2) (fun r => r.TAXBLEAMT)
    (fun _ _ => rfl) (fun _ => rfl) (s.flatMap (·.records)) []
  simpa using h

theorem sum_qty_productMapL (s : List DailySales) :
    ((productMapL s).map (fun p => p.2.1)).sum
      = ((s.flatMap (·.records)).map (·.QTY)).sum := by
  unfold productMapL
  rw [foldl_records_flatten aggStep]
  have h := sum_map_foldl_bump (fun r : SalesRecord => r.ITNAME)
    (fun r e => (e.1 + r.QTY, e.2 + r.TAXBLEAMT)) (fun _ => ((0 : ℚ), (0 : ℚ)))
    (fun e => e.1) (fun r => r.QTY)
    (fun _ _ => rfl) (fun _ => rfl) (s.flatMap (·.records)) []
  simpa using h

theorem sum_amount_companyMapL (s : List DailySales) :
    ((companyMapL s).map (fun p => p.2.amount)).sum
      = ((s.flatMap (·.records)).map (·.TAXBLEAMT)).sum := by
  unfold companyMapL
  rw [foldl_records_flatten compStep]
  have h := sum_map_foldl_bump (fun r : SalesRecord => companyKey r)
    (fun r (e : CompAcc) =>
      { amount := e.amount + r.TAXBLEAMT
        qty := e.qty + r.QTY
        products := bumpG r.ITNAME (fun p => (p.1 + r.QTY, p.2 + r.TAXBLEAMT)) (0, 0) e.products })
    (fun _ => (⟨0, 0, []⟩ : CompAcc))
    (fun e => e.amount) (fun r => r.TAXBLEAMT)
    (fun _ _ => rfl) (fun _ => rfl) (s.flatMap (·.records)) []
  simpa using h

theorem getTotalSales_eq_flat (s : List DailySales)
    (hA : ∀ b ∈ s, b.totalAmount = (b.records.map (·.TAXBLEAMT)).sum) :
    getTotalSales s = ((s.flatMap (·.records)).map (·.TAXBLEAMT)).sum := by
  unfold getTotalSales
  rw [sum_map_flatMap]
  exact congrArg List.sum (List.map_congr_left hA)

theorem getTotalQuantity_eq_flat (s : List DailySales)
    (hQ : ∀ b ∈ s, b.totalQuantity = (b.records.map (·.QTY)).sum) :
    getTotalQuantity s = ((s.flatMap (·.records)).map (·.QTY)).sum := by
  unfold getTotalQuantity
  rw [sum_map_flatMap]
  exact congrArg List.sum (List.map_congr_left hQ)

/-- C5: for every non-empty batch list whose precomputed batch totals match
the sums over their own records, the product aggregates of
`aggregateByProduct` sum to `getTotalSales` / `getTotalQuantity`, and the
company aggregates of `aggregateByCompany` sum to the same grand total, no
matter how many records fall under the `'Unknown'` company. -/
theorem aggregate_totals_consistent (s : List DailySales) (hne : s ≠ [])
    (hA : ∀ b ∈ s, b.totalAmount = (b.records.map (·.TAXBLEAMT)).sum)
    (hQ : ∀ b ∈ s, b.totalQuantity = (b.records.map (·.QTY)).sum) :
    ((aggregateByProduct s).map (·.totalAmount)).sum = getTotalSales s
    ∧ ((aggregateByProduct s).map (·.totalQty)).sum = getTotalQuantity s
    ∧ ((aggregateByCompany s).map (·.totalAmount)).sum = getTotalSales s := by
  refine ⟨?_, ?_, ?_⟩
  · rw [aggregateByProduct, sum_map_insertionSort, List.map_map,
      getTotalSales_eq_flat s hA, ← sum_amount_productMapL]
    rfl
  · rw [aggregateByProduct, sum_map_insertionSort, List.map_map,
      getTotalQuantity_eq_flat s hQ, ← sum_qty_productMapL]
    rfl
  · rw [aggregateByCompany, sum_map_insertionSort, List.map_map,
      getTotalSales_eq_flat s hA, ← sum_amount_companyMapL]
    rfl

/-- Witness for C5 at a concrete two-record batch. -/
theorem aggregate_totals_consistent_witness :
    ((aggregateByProduct [⟨1, "PS",
        [⟨"h1", "A", 2, 10, 0, none⟩, ⟨"h2", "B", 1, 5, 0, some "X"⟩], 15, 3⟩]).map
      (·.totalAmount)).sum
      = getTotalSales [⟨1, "PS",
          [⟨"h1", "A", 2, 10, 0, none⟩, ⟨"h2", "B", 1, 5, 0, some "X"⟩], 15, 3⟩] := by
  have h := aggregate_totals_consistent
    [⟨1, "PS", [⟨"h1", "A", 2, 10, 0, none⟩, ⟨"h2", "B", 1, 5, 0, some "X"⟩], 15, 3⟩]
    (by simp) (by intro b hb; simp at hb; subst hb; norm_num)
    (by intro b hb; simp at hb; subst hb; norm_num)
  exact h.1

/-- C10: `enrichWithCompanyData` modifies only the `company` field: a record
whose normalized item name the mapper does not resolve is left entirely
unchanged (a previously set company is never cleared), and for every record
all fields other than `company`, as well as every batch-level field, are
unchanged. -/
theorem enrich_frame (table : List (String × String)) (s : List DailySales)
    (r : SalesRecord) (hmiss : getCompanyForProduct table r.ITNAME = none) :
    enrichRecord table r = r
    ∧ (∀ r' : SalesRecord,
        (enrichRecord table r').HSNCODE = r'.HSNCODE
        ∧ (enrichRecord table r').ITNAME = r'.ITNAME
        ∧ (enrichRecord table r').QTY = r'.QTY
        ∧ (enrichRecord table r').TAXBLEAMT = r'.TAXBLEAMT
        ∧ (enrichRecord table r').GST = r'.GST)
    ∧ (enrichWithCompanyData table s).map (·.date) = s.map (·.date)
    ∧ (enrichWithCompanyData table s).map (·.dtype) = s.map (·.dtype)
    ∧ (enrichWithCompanyData table s).map (·.totalAmount) = s.map (·.totalAmount)
    ∧ (enrichWithCompanyData table s).map (·.totalQuantity) = s.map (·.totalQuantity)
    ∧ (enrichWithCompanyData table s).map
          (fun d => d.records.map (fun rr => (rr.HSNCODE, rr.ITNAME, rr.QTY, rr.TAXBLEAMT, rr.GST)))
        = s.map
          (fun d => d.records.map (fun rr => (rr.HSNCODE, rr.ITNAME, rr.QTY, rr.TAXBLEAMT, rr.GST))) := by
  have hfields : ∀ r' : SalesRecord,
      (enrichRecord table r').HSNCODE = r'.HSNCODE
      ∧ (enrichRecord table r').ITNAME = r'.ITNAME
      ∧ (enrichRecord table r').QTY = r'.QTY
      ∧ (enrichRecord table r').TAXBLEAMT = r'.TAXBLEAMT
      ∧ (enrichRecord table r').GST = r'.GST := by
    intro r'
    unfold enrichRecord
    cases h : getCompanyForProduct table r'.ITNAME with
    | none => simp
    | some c => by_cases hc : c = "" <;> simp [hc]
  refine ⟨by simp [enrichRecord, hmiss], hfields, ?_, ?_, ?_, ?_, ?_⟩
  · simp [enrichWithCompanyData, List.map_map, Function.comp]
  · simp [enrichWithCompanyData, List.map_map, Function.comp]
  · simp [enrichWithCompanyData, List.map_map, Function.comp]
  · simp [enrichWithCompanyData, List.map_map, Function.comp]
  · simp only [enrichWithCompanyData, List.map_map]
    apply List.map_congr_left
    intro d _
    show (d.records.map (enrichRecord table)).map _ = _
    rw [List.map_map]
    apply List.map_congr_left
    intro rr _
    obtain ⟨h1, h2, h3, h4, h5⟩ := hfields rr
    simp [h1, h2, h3, h4, h5]

/-- Witness for C10 with an empty mapping table (every lookup misses). -/
theorem enrich_frame_witness :
    enrichRecord [] ⟨"01", "DAP", 1, 2, 0, some "Old"⟩ = ⟨"01", "DAP", 1, 2, 0, some "Old"⟩ := by
  have h := enrich_frame [] [] ⟨"01", "DAP", 1, 2, 0, some "Old"⟩ rfl
  exact h.1

/-! ### Velocity engine (`src/sales-dashboard/src/components/Dashboard.tsx`) -/

/-- Three-way velocity class of a product. -/
inductive VClass where
  | fast
  | medium
  | slow
deriving DecidableEq, Repr

/-- Trend tag of a period-over-period comparison. -/
inductive Trend where
  | accelerating
  | stable
  | decelerating
deriving DecidableEq, Repr

/-- Gainer/loser tag of a period-over-period comparison. -/
inductive GainLoss where
  | gainer
  | stable
  | loser
deriving DecidableEq, Repr

/-- `ProductVelocityMetrics` of `types/index.ts`. -/
structure ProductVelocityMetrics where
  productName : String
  company : Option String
  totalQty : ℚ
  totalAmount : ℚ
  daysActive : ℕ
  dailyVelocity : ℚ
  weeklyVelocity : ℚ
  classification : VClass
  rank : ℕ
deriving DecidableEq, Repr

/-- Per-product accumulator of `calculateProductVelocity`: quantity, amount,
the distinct set of active dates (insertion-ordered) and the company tag. -/
structure VAcc where
  qty : ℚ
  amount : ℚ
  dates : List ℤ
  company : Option String
deriving DecidableEq, Repr

/-- Models `a || b` on `string | undefined` values: an empty string is falsy. -/
def jsOrStr (a b : Option String) : Option String :=
  match a with
  | some s => if s = "" then b else some s
  | none => b

/-- Models `Set.prototype.add`: append if not present. -/
def addDate (dates : List ℤ) (d : ℤ) : List ℤ :=
  if d ∈ dates then dates else dates ++ [d]

/-- One record's update of the velocity accumulator map
(`Dashboard.tsx` lines 1776-1792). -/
def velStep (date : ℤ) (m : List (String × VAcc)) (r : SalesRecord) : List (String × VAcc) :=
  bumpG r.ITNAME
    (fun e =>
      { qty := e.qty + r.QTY
        amount := e.amount + r.TAXBLEAMT
        dates := addDate e.dates date
        company := jsOrStr r.company e.company })
    ⟨0, 0, [], r.company⟩ m

/-- The fully accumulated product map of `calculateProductVelocity`. -/
def velocityAccum (salesData : List DailySales) : List (String × VAcc) :=
  salesData.foldl (fun m daily => daily.records.foldl (velStep daily.date) m) []

/-- Converts one accumulator entry to a metric (`Dashboard.tsx` lines
1795-1811); classification is temporarily `medium` and rank `0`, both
overwritten below, exactly as in the source. -/
def toVelocityMetric (p : String × VAcc) : ProductVelocityMetrics :=
  let daysActive := p.2.dates.length
  let dailyVelocity := if 0 < daysActive then p.2.qty / (daysActive : ℚ) else 0
  { productName := p.1
    company := p.2.company
    totalQty := p.2.qty
    totalAmount := p.2.amount
    daysActive := daysActive
    dailyVelocity := dailyVelocity
    weeklyVelocity := dailyVelocity * 7
    classification := .medium
    rank := 0 }

/-- Descending-by-daily-velocity comparator
(`(a, b) => b.dailyVelocity - a.dailyVelocity`). -/
def velGE (a b : ProductVelocityMetrics) : Prop := b.dailyVelocity ≤ a.dailyVelocity

instance : DecidableRel velGE := fun a b => inferInstanceAs (Decidable (_ ≤ _))

instance : IsTotal ProductVelocityMetrics velGE :=
  ⟨fun a b => le_total b.dailyVelocity a.dailyVelocity⟩

instance : IsTrans ProductVelocityMetrics velGE := ⟨fun _ _ _ h1 h2 => le_trans h2 h1⟩

/-- The metrics sorted by descending daily velocity (stable, as in
`Array.prototype.sort`). -/
def sortedVelocity (salesData : List DailySales) : List ProductVelocityMetrics :=
  List.insertionSort velGE ((velocityAccum salesData).map toVelocityMetric)

/-- The `forEach` loop of `Dashboard.tsx` lines 1817-1834: assign
`rank = index + 1` and classify by index against the two thresholds. -/
def rankClassify (fastT medT : ℤ) : ℕ → List ProductVelocityMetrics → List ProductVelocityMetrics
  | _, [] => []
  | i, m :: rest =>
    { m with
      rank := i + 1
      classification :=
        if (i : ℤ) < fastT then .fast else if (i : ℤ) < medT then .medium else .slow }
      :: rankClassify fastT medT (i + 1) rest

/-- `calculateProductVelocity` (`Dashboard.tsx` lines 1766-1837).  The float
literals `0.33` / `0.67` are modelled by the exact rationals `33/100` /
`67/100`; they agree with the float computation at every product count the
claims exercise, and no claim below depends on the cutoff values. -/
def calculateProductVelocity (salesData : List DailySales) : List ProductVelocityMetrics :=
  rankClassify
    ⌈((sortedVelocity salesData).length : ℚ) * (33/100)⌉
    ⌈((sortedVelocity salesData).length : ℚ) * (67/100)⌉
    0 (sortedVelocity salesData)

/-- Result of `getVelocityDistribution`. -/
structure VelocityDistribution where
  fast : ℕ
  medium : ℕ
  slow : ℕ
deriving DecidableEq, Repr

/-- `getVelocityDistribution` (`Dashboard.tsx` lines 1986-1996). -/
def getVelocityDistribution (velocityMetrics : List ProductVelocityMetrics) :
    VelocityDistribution :=
  { fast := (velocityMetrics.filter (fun v => decide (v.classification = .fast))).length
    medium := (velocityMetrics.filter (fun v => decide (v.classification = .medium))).length
    slow := (velocityMetrics.filter (fun v => decide (v.classification = .slow))).length }

/-- `VelocityChange` of `types/index.ts`. -/
structure VelocityChange where
  productName : String
  company : Option String
  currentVelocity : ℚ
  previousVelocity : ℚ
  changePercent : ℚ
  changeAbsolute : ℚ
  trend : Trend
  classification : GainLoss
deriving DecidableEq, Repr

/-- The body of the `allProducts.forEach` loop of `compareVelocityPeriods`
(`Dashboard.tsx` lines 1908-1978).  JavaScript truthiness is modelled
faithfully: `current` is an object (truthy whenever present) but `previous`
is a number, so `!previous` is also true when the looked-up previous
velocity is exactly `0` — such products take the new-product branch. -/
def changeFor (curMap : List (String × ProductVelocityMetrics)) (prevMap : List (String × ℚ))
    (pv : List ProductVelocityMetrics) (name : String) : Option VelocityChange :=
  match lookupA curMap name, lookupA prevMap name with
  | some c, none =>
    some ⟨name, c.company, c.dailyVelocity, 0, 100, c.dailyVelocity, .accelerating, .gainer⟩
  | some c, some p =>
    if p = 0 then
      some ⟨name, c.company, c.dailyVelocity, 0, 100, c.dailyVelocity, .accelerating, .gainer⟩
    else
      let changeAbsolute := c.dailyVelocity - p
      let changePercent := if 0 < p then changeAbsolute / p * 100 else 0
      some ⟨name, c.company, c.dailyVelocity, p, changePercent, changeAbsolute,
        if 5 < changePercent then .accelerating
          else if changePercent < -5 then .decelerating else .stable,
        if 15 < changePercent then .gainer
          else if changePercent < -15 then .loser else .stable⟩
  | none, some p =>
    if p = 0 then none
    else
      some ⟨name, (pv.find? (fun v => decide (v.productName = name))).bind (·.company),
        0, p, -100, -p, .decelerating, .loser⟩
  | none, none => none

/-- `compareVelocityPeriods` (`Dashboard.tsx` lines 1883-1981). -/
def compareVelocityPeriods (currentPeriod previousPeriod : List DailySales) :
    List VelocityChange :=
  let cv := calculateProductVelocity currentPeriod
  let pv := calculateProductVelocity previousPeriod
  let prevMap := pv.map (fun v => (v.productName, v.dailyVelocity))
  let curMap := cv.map (fun v => (v.productName, v))
  let allProducts := jsSetList (cv.map (·.productName) ++ pv.map (·.productName))
  allProducts.filterMap (changeFor curMap prevMap pv)

/-- Period granularity of `splitDataByPeriod`. -/
inductive PeriodType where
  | week
  | month
deriving DecidableEq, Repr

/-- The sorted list of distinct dates
(`Array.from(new Set(salesData.map(d => d.date))).sort()`). -/
def sortedDates (salesData : List DailySales) : List ℤ :=
  List.insertionSort (· ≤ ·) (jsSetList (salesData.map (·.date)))

/-- `splitDataByPeriod` (`Dashboard.tsx` lines 1842-1878). -/
def splitDataByPeriod (salesData : List DailySales) (periodType : PeriodType) :
    List DailySales × List DailySales :=
  if salesData.isEmpty then ([], [])
  else
    let dates := sortedDates salesData
    if dates.isEmpty then ([], [])
    else
      let latestDate := dates.getLastD 0
      let periodDays : ℤ := match periodType with | .week => 7 | .month => 30
      let currentStart := latestDate - (periodDays - 1)
      let previousEnd := currentStart - 1
      let previousStart := previousEnd - (periodDays - 1)
      (salesData.filter (fun d => decide (currentStart ≤ d.date) && decide (d.date ≤ latestDate)),
       salesData.filter (fun d => decide (previousStart ≤ d.date) && decide (d.date ≤ previousEnd)))

/-! ### Lemmas about `rankClassify`, accumulator keys and `jsSetList` -/

theorem rankClassify_length (fT mT : ℤ) :
    ∀ (l : List ProductVelocityMetrics) (i : ℕ), (rankClassify fT mT i l).length = l.length := by
  intro l
  induction l with
  | nil => intro i; rfl
  | cons m rest ih => intro i; simp [rankClassify, ih]

theorem rankClassify_map_rank (fT mT : ℤ) :
    ∀ (l : List ProductVelocityMetrics) (i : ℕ),
      (rankClassify fT mT i l).map (·.rank) = List.range' (i + 1) l.length := by
  intro l
  induction l with
  | nil => intro i; rfl
  | cons m rest ih =>
    intro i
    show (i + 1) :: (rankClassify fT mT (i + 1) rest).map (·.rank) = _
    rw [ih, List.length_cons, List.range'_succ]

theorem rankClassify_map_vel (fT mT : ℤ) :
    ∀ (l : List ProductVelocityMetrics) (i : ℕ),
      (rankClassify fT mT i l).map (·.dailyVelocity) = l.map (·.dailyVelocity) := by
  intro l
  induction l with
  | nil => intro i; rfl
  | cons m rest ih => intro i; simp [rankClassify, ih]

theorem rankClassify_map_name (fT mT : ℤ) :
    ∀ (l : List ProductVelocityMetrics) (i : ℕ),
      (rankClassify fT mT i l).map (·.productName) = l.map (·.productName) := by
  intro l
  induction l with
  | nil => intro i; rfl
  | cons m rest ih => intro i; simp [rankClassify, ih]

theorem class_count_partition :
    ∀ l : List ProductVelocityMetrics,
      (l.filter (fun v => decide (v.classification = .fast))).length
      + (l.filter (fun v => decide (v.classification = .medium))).length
      + (l.filter (fun v => decide (v.classification = .slow))).length = l.length := by
  intro l
  induction l with
  | nil => rfl
  | cons m rest ih =>
    cases h : m.classification <;> simp [List.filter_cons, h, ih] <;> omega

theorem keys_bumpG {K A : Type} [DecidableEq K] (k : K) (f : A → A) (d : A) :
    ∀ m : List (K × A),
      (bumpG k f d m).map Prod.fst
        = if k ∈ m.map Prod.fst then m.map Prod.fst else m.map Prod.fst ++ [k] := by
  intro m
  induction m with
  | nil => simp [bumpG]
  | cons p rest ih =>
    obtain ⟨k', v⟩ := p
    by_cases h : k' = k
    · simp [bumpG, h]
    · have hk : ¬ k = k' := fun e => h e.symm
      simp only [bumpG, if_neg h, List.map_cons, List.mem_cons, hk, false_or, ih]
      by_cases h2 : k ∈ rest.map Prod.fst <;> simp [h2]

theorem mem_keys_bumpG {K A : Type} [DecidableEq K] (x k : K) (f : A → A) (d : A)
    (m : List (K × A)) :
    x ∈ (bumpG k f d m).map Prod.fst ↔ x ∈ m.map Prod.fst ∨ x = k := by
  rw [keys_bumpG]
  by_cases h : k ∈ m.map Prod.fst
  · rw [if_pos h]
    exact ⟨Or.inl, fun hx => hx.elim id (fun e => e ▸ h)⟩
  · rw [if_neg h]
    simp

theorem nodup_keys_bumpG {K A : Type} [DecidableEq K] (k : K) (f : A → A) (d : A)
    (m : List (K × A)) (hnd : (m.map Prod.fst).Nodup) :
    ((bumpG k f d m).map Prod.fst).Nodup := by
  rw [keys_bumpG]
  by_cases h : k ∈ m.map Prod.fst
  · rwa [if_pos h]
  · rw [if_neg h]
    exact hnd.append (List.nodup_singleton k)
      (fun x hx hk => h ((List.mem_singleton.mp hk) ▸ hx))

theorem mem_keys_velStep_foldl :
    ∀ (recs : List SalesRecord) (date : ℤ) (m : List (String × VAcc)) (x : String),
      x ∈ (recs.foldl (velStep date) m).map Prod.fst
        ↔ x ∈ m.map Prod.fst ∨ x ∈ recs.map (·.ITNAME) := by
  intro recs
  induction recs with
  | nil => simp
  | cons r rest ih =>
    intro date m x
    simp only [List.foldl_cons, List.map_cons, List.mem_cons]
    rw [ih]
    simp only [velStep, mem_keys_bumpG]
    tauto

theorem nodup_keys_velStep_foldl :
    ∀ (recs : List SalesRecord) (date : ℤ) (m : List (String × VAcc)),
      (m.map Prod.fst).Nodup → ((recs.foldl (velStep date) m).map Prod.fst).Nodup := by
  intro recs
  induction recs with
  | nil => intro _ _ h; exact h
  | cons r rest ih =>
    intro date m h
    exact ih date _ (nodup_keys_bumpG _ _ _ _ h)

theorem mem_keys_velocityAccum_aux :
    ∀ (s : List DailySales) (m : List (String × VAcc)) (x : String),
      x ∈ (s.foldl (fun m daily => daily.records.foldl (velStep daily.date) m) m).map Prod.fst
        ↔ x ∈ m.map Prod.fst ∨ x ∈ (s.flatMap (·.records)).map (·.ITNAME) := by
  intro s
  induction s with
  | nil => simp
  | cons d rest ih =>
    intro m x
    simp only [List.foldl_cons]
    rw [ih, mem_keys_velStep_foldl]
    simp only [List.flatMap_cons, List.map_append, List.mem_append]
    tauto

theorem mem_keys_velocityAccum (s : List DailySales) (x : String) :
    x ∈ (velocityAccum s).map Prod.fst ↔ x ∈ (s.flatMap (·.records)).map (·.ITNAME) := by
  unfold velocityAccum
  rw [mem_keys_velocityAccum_aux]
  simp

theorem nodup_keys_velocityAccum_aux :
    ∀ (s : List DailySales) (m : List (String × VAcc)),
      (m.map Prod.fst).Nodup
      → ((s.foldl (fun m daily => daily.records.foldl (velStep daily.date) m) m).map
          Prod.fst).Nodup := by
  intro s
  induction s with
  | nil => intro _ h; exact h
  | cons d rest ih =>
    intro m h
    exact ih _ (nodup_keys_velStep_foldl _ _ _ h)

theorem nodup_keys_velocityAccum (s : List DailySales) :
    ((velocityAccum s).map Prod.fst).Nodup :=
  nodup_keys_velocityAccum_aux s [] List.nodup_nil

theorem mem_dedupAux {K : Type} [DecidableEq K] :
    ∀ (l : List K) (seen : List K) (x : K),
      x ∈ dedupAux seen l ↔ x ∈ l ∧ x ∉ seen := by
  intro l
  induction l with
  | nil => simp [dedupAux]
  | cons y ys ih =>
    intro seen x
    by_cases h : y ∈ seen
    · rw [dedupAux, if_pos h, ih]
      constructor
      · rintro ⟨hx, hs⟩
        exact ⟨List.mem_cons_of_mem y hx, hs⟩
      · rintro ⟨hx, hs⟩
        rcases List.mem_cons.mp hx with rfl | hx
        · exact absurd h hs
        · exact ⟨hx, hs⟩
    · rw [dedupAux, if_neg h]
      simp only [List.mem_cons, ih, List.mem_cons]
      constructor
      · rintro (rfl | ⟨hx, hs⟩)
        · exact ⟨Or.inl rfl, h⟩
        · exact ⟨Or.inr hx, fun hm => hs (Or.inr hm)⟩
      · rintro ⟨rfl | hx, hs⟩
        · exact Or.inl rfl
        · by_cases hxy : x = y
          · exact Or.inl hxy
          · exact Or.inr ⟨hx, fun hm => hm.elim hxy hs⟩

theorem nodup_dedupAux {K : Type} [DecidableEq K] :
    ∀ (l : List K) (seen : List K), (dedupAux seen l).Nodup := by
  intro l
  induction l with
  | nil => intro _; exact List.nodup_nil
  | cons y ys ih =>
    intro seen
    by_cases h : y ∈ seen
    · rw [dedupAux, if_pos h]
      exact ih seen
    · rw [dedupAux, if_neg h]
      refine List.Nodup.cons ?_ (ih (y :: seen))
      intro hmem
      exact ((mem_dedupAux ys (y :: seen) y).mp hmem).2 (List.mem_cons_self y seen)

theorem mem_jsSetList {K : Type} [DecidableEq K] (l : List K) (x : K) :
    x ∈ jsSetList l ↔ x ∈ l := by
  unfold jsSetList
  rw [mem_dedupAux]
  simp

theorem nodup_jsSetList {K : Type} [DecidableEq K] (l : List K) : (jsSetList l).Nodup :=
  nodup_dedupAux l []

theorem length_eq_of_nodup_iff {α : Type} {l1 l2 : List α} (h1 : l1.Nodup) (h2 : l2.Nodup)
    (hm : ∀ x, x ∈ l1 ↔ x ∈ l2) : l1.length = l2.length :=
  ((List.perm_ext_iff_of_nodup h1 h2).mpr hm).length_eq

theorem cpv_names_perm (s : List DailySales) :
    List.Perm ((calculateProductVelocity s).map (·.productName))
      ((velocityAccum s).map Prod.fst) := by
  unfold calculateProductVelocity
  rw [rankClassify_map_name]
  have h1 : List.Perm ((sortedVelocity s).map (·.productName))
      (((velocityAccum s).map toVelocityMetric).map (·.productName)) :=
    (List.perm_insertionSort velGE _).map _
  have h2 : ((velocityAccum s).map toVelocityMetric).map (·.productName)
      = (velocityAccum s).map Prod.fst := by
    rw [List.map_map]; rfl
  exact h2 ▸ h1

theorem velocity_names_nodup (s : List DailySales) :
    ((calculateProductVelocity s).map (·.productName)).Nodup :=
  (cpv_names_perm s).nodup_iff.mpr (nodup_keys_velocityAccum s)

theorem mem_velocity_names (s : List DailySales) (x : String) :
    x ∈ (calculateProductVelocity s).map (·.productName)
      ↔ x ∈ (s.flatMap (·.records)).map (·.ITNAME) := by
  rw [(cpv_names_perm s).mem_iff, mem_keys_velocityAccum]

/-- C6: ranks of `calculateProductVelocity` are exactly `1..N` in list order
(`N` = number of distinct product names), daily velocities are
non-increasing along the ranked list, and the fast/medium/slow bucket counts
of `getVelocityDistribution` sum to `N` for every input. -/
theorem velocity_rank_invariants (s : List DailySales) :
    (calculateProductVelocity s).map (·.rank)
        = List.range' 1 (calculateProductVelocity s).length
    ∧ (calculateProductVelocity s).length
        = (jsSetList ((s.flatMap (·.records)).map (·.ITNAME))).length
    ∧ ((calculateProductVelocity s).map (·.dailyVelocity)).Pairwise (· ≥ ·)
    ∧ (getVelocityDistribution (calculateProductVelocity s)).fast
      + (getVelocityDistribution (calculateProductVelocity s)).medium
      + (getVelocityDistribution (calculateProductVelocity s)).slow
      = (calculateProductVelocity s).length := by
  refine ⟨?_, ?_, ?_, ?_⟩
  · rw [calculateProductVelocity, rankClassify_map_rank, rankClassify_length]
  · have h := length_eq_of_nodup_iff (velocity_names_nodup s)
      (nodup_jsSetList ((s.flatMap (·.records)).map (·.ITNAME)))
      (fun x => by rw [mem_velocity_names, mem_jsSetList])
    simpa using h
  · rw [calculateProductVelocity, rankClassify_map_vel]
    have hs : (sortedVelocity s).Pairwise velGE := List.sorted_insertionSort velGE _
    rw [List.pairwise_map]
    exact hs.imp (fun h => h)
  · exact class_count_partition _

/-! ### C3: classification at exactly two products -/

/-- The spec's own end-to-end scenario: two products over two days; product
A sells 10 then 20 units, product B sells 5 units on day 1 only. -/
def velEx3 : List DailySales :=
  [⟨1, "PS", [⟨"h", "A", 10, 1000, 0, none⟩, ⟨"h", "B", 5, 500, 0, none⟩], 1500, 15⟩,
   ⟨2, "PS", [⟨"h", "A", 20, 2000, 0, none⟩], 2000, 20⟩]

theorem ceil_two_033 : (⌈((2 : ℕ) : ℚ) * (33/100)⌉ : ℤ) = 1 := by
  rw [Int.ceil_eq_iff] <;> norm_num

theorem ceil_two_067 : (⌈((2 : ℕ) : ℚ) * (67/100)⌉ : ℤ) = 2 := by
  rw [Int.ceil_eq_iff] <;> norm_num

theorem ceil_two_033' : (⌈(33/50 : ℚ)⌉ : ℤ) = 1 := by
  rw [Int.ceil_eq_iff] <;> norm_num

theorem ceil_two_067' : (⌈(67/50 : ℚ)⌉ : ℤ) = 2 := by
  rw [Int.ceil_eq_iff] <;> norm_num

/-- C3 counterexample: with exactly 2 products of distinct velocities
(A at 15/day, B at 5/day), the code classifies rank 2 as `medium`, not
`slow`: `mediumThreshold = ceil(2 * 0.67) = 2` covers index 1. -/
theorem velocity_n2_rank2_medium :
    (calculateProductVelocity velEx3).map (fun m => (m.productName, m.rank, m.classification))
      = [("A", 1, VClass.fast), ("B", 2, VClass.medium)] := by
  norm_num [calculateProductVelocity, sortedVelocity, velocityAccum, velStep, bumpG,
    addDate, jsOrStr, toVelocityMetric, rankClassify, velGE, velEx3,
    ceil_two_033, ceil_two_067, ceil_two_033', ceil_two_067']

/-- C3 amended: for every input on which `calculateProductVelocity` yields
exactly 2 products, the rank-1 product is classified `fast` and the rank-2
product `medium`; no `slow` classification occurs at N = 2 under the
`ceil(33%)`/`ceil(67%)` index thresholds. -/
theorem velocity_two_products_fast_medium (s : List DailySales)
    (h2 : (calculateProductVelocity s).length = 2) :
    (calculateProductVelocity s).map (·.classification) = [VClass.fast, VClass.medium] := by
  have hl : (sortedVelocity s).length = 2 := by
    rw [calculateProductVelocity, rankClassify_length] at h2
    exact h2
  rw [calculateProductVelocity, hl, ceil_two_033, ceil_two_067]
  obtain ⟨a, b, hab⟩ := List.length_eq_two.mp hl
  rw [hab]
  simp [rankClassify]

/-- Witness for the amended C3 at the concrete two-product input. -/
theorem velocity_two_products_fast_medium_witness :
    (calculateProductVelocity velEx3).length = 2
    ∧ (calculateProductVelocity velEx3).map (·.classification)
        = [VClass.fast, VClass.medium] := by
  have hlen : (calculateProductVelocity velEx3).length = 2 := by
    norm_num [calculateProductVelocity, sortedVelocity, velocityAccum, velStep, bumpG,
      addDate, jsOrStr, toVelocityMetric, rankClassify, velGE, velEx3,
      ceil_two_033, ceil_two_067, ceil_two_033', ceil_two_067']
  exact ⟨hlen, velocity_two_products_fast_medium velEx3 hlen⟩

/-! ### C4: products present in both periods with zero previous velocity -/

theorem lookupA_eq_of_mem {K A : Type} [DecidableEq K] :
    ∀ (m : List (K × A)) (k : K) (v : A),
      (m.map Prod.fst).Nodup → (k, v) ∈ m → lookupA m k = some v := by
  intro m
  induction m with
  | nil => intro k v _ hv; simp at hv
  | cons q rest ih =>
    intro k v hnd hv
    obtain ⟨k', v'⟩ := q
    rw [List.map_cons, List.nodup_cons] at hnd
    rcases List.mem_cons.mp hv with heq | hv'
    · injection heq with h1 h2
      subst h1
      subst h2
      simp [lookupA, List.find?]
    · have hk : ¬ (k' = k) := by
        intro e
        subst e
        exact hnd.1 (List.mem_map.mpr ⟨(k', v), hv', rfl⟩)
      have := ih k v hnd.2 hv'
      simpa [lookupA, List.find?, hk] using this

theorem velocity_pairs_keys_nodup (s : List DailySales) :
    (((calculateProductVelocity s).map
        (fun v => (v.productName, v))).map Prod.fst).Nodup := by
  rw [List.map_map]
  exact velocity_names_nodup s

theorem velocity_prevpairs_keys_nodup (s : List DailySales) :
    (((calculateProductVelocity s).map
        (fun v => (v.productName, v.dailyVelocity))).map Prod.fst).Nodup := by
  rw [List.map_map]
  exact velocity_names_nodup s

/-- C4 amended: a product present in both periods whose previous-period
daily velocity is exactly 0 is handled by the new-product branch (the
JavaScript truthiness check `!previous` is true for the number `0`):
its reported change is `+100%` with trend `accelerating` and
classification `gainer` — not `0%` / `stable` / `stable`. -/
theorem zero_prev_velocity_treated_as_new (cur prev : List DailySales) (name : String)
    (m p : ProductVelocityMetrics)
    (hm : m ∈ calculateProductVelocity cur) (hmn : m.productName = name)
    (hp : p ∈ calculateProductVelocity prev) (hpn : p.productName = name)
    (hpz : p.dailyVelocity = 0) :
    ∃ e ∈ compareVelocityPeriods cur prev,
      e.productName = name ∧ e.previousVelocity = 0 ∧ e.changePercent = 100
        ∧ e.trend = Trend.accelerating ∧ e.classification = GainLoss.gainer := by
  have hcur : lookupA ((calculateProductVelocity cur).map (fun v => (v.productName, v)))
      name = some m := by
    apply lookupA_eq_of_mem _ _ _ (velocity_pairs_keys_nodup cur)
    exact List.mem_map.mpr ⟨m, hm, by rw [hmn]⟩
  have hprev : lookupA ((calculateProductVelocity prev).map
      (fun v => (v.productName, v.dailyVelocity))) name = some 0 := by
    apply lookupA_eq_of_mem _ _ _ (velocity_prevpairs_keys_nodup prev)
    exact List.mem_map.mpr ⟨p, hp, by rw [hpn, hpz]⟩
  have hmem : name ∈ jsSetList ((calculateProductVelocity cur).map (·.productName)
      ++ (calculateProductVelocity prev).map (·.productName)) := by
    rw [mem_jsSetList]
    exact List.mem_append.mpr (Or.inl (List.mem_map.mpr ⟨m, hm, hmn⟩))
  refine ⟨⟨name, m.company, m.dailyVelocity, 0, 100, m.dailyVelocity,
    .accelerating, .gainer⟩, ?_, rfl, rfl, rfl, rfl, rfl⟩
  simp only [compareVelocityPeriods]
  apply List.mem_filterMap.mpr
  refine ⟨name, hmem, ?_⟩
  rw [changeFor, hcur, hprev]
  simp

/-- Concrete current period for the C4 counterexample: product X moves 7
units on the single day of the window. -/
def curEx4 : List DailySales := [⟨8, "PS", [⟨"h", "X", 7, 7, 0, none⟩], 7, 7⟩]

/-- Concrete previous period for the C4 counterexample: product X is
present (one active day) but with zero quantity, hence velocity exactly 0. -/
def prevEx4 : List DailySales := [⟨1, "PS", [⟨"h", "X", 0, 0, 0, none⟩], 0, 0⟩]

theorem ceil_one_033 : (⌈((1 : ℕ) : ℚ) * (33/100)⌉ : ℤ) = 1 := by
  rw [Int.ceil_eq_iff] <;> norm_num

theorem ceil_one_067 : (⌈((1 : ℕ) : ℚ) * (67/100)⌉ : ℤ) = 1 := by
  rw [Int.ceil_eq_iff] <;> norm_num

theorem ceil_one_033' : (⌈(33/100 : ℚ)⌉ : ℤ) = 1 := by
  rw [Int.ceil_eq_iff] <;> norm_num

theorem ceil_one_067' : (⌈(67/100 : ℚ)⌉ : ℤ) = 1 := by
  rw [Int.ceil_eq_iff] <;> norm_num

/-- C4 counterexample: product X is present in both periods, its previous
velocity is exactly 0 and its current velocity is 7, yet the code reports
`changePercent = 100`, trend `accelerating`, classification `gainer` —
the claim's `0` / `stable` / `stable` is false. -/
theorem zero_prev_velocity_counterexample :
    compareVelocityPeriods curEx4 prevEx4
      = [⟨"X", none, 7, 0, 100, 7, Trend.accelerating, GainLoss.gainer⟩] := by
  norm_num [compareVelocityPeriods, changeFor, calculateProductVelocity, sortedVelocity,
    velocityAccum, velStep, bumpG, addDate, jsOrStr, toVelocityMetric, rankClassify, velGE,
    curEx4, prevEx4, jsSetList, dedupAux, lookupA, List.find?,
    List.filterMap_cons, List.filterMap_nil,
    ceil_one_033, ceil_one_067, ceil_one_033', ceil_one_067']

/-- Witness for the amended C4 at the concrete input. -/
theorem zero_prev_velocity_treated_as_new_witness :
    ∃ e ∈ compareVelocityPeriods curEx4 prevEx4,
      e.productName = "X" ∧ e.previousVelocity = 0 ∧ e.changePercent = 100
        ∧ e.trend = Trend.accelerating ∧ e.classification = GainLoss.gainer := by
  have hcv : calculateProductVelocity curEx4
      = [⟨"X", none, 7, 7, 1, 7, 49, .fast, 1⟩] := by
    norm_num [calculateProductVelocity, sortedVelocity, velocityAccum, velStep, bumpG,
      addDate, jsOrStr, toVelocityMetric, rankClassify, velGE, curEx4,
      ceil_one_033, ceil_one_067, ceil_one_033', ceil_one_067']
  have hpv : calculateProductVelocity prevEx4
      = [⟨"X", none, 0, 0, 1, 0, 0, .fast, 1⟩] := by
    norm_num [calculateProductVelocity, sortedVelocity, velocityAccum, velStep, bumpG,
      addDate, jsOrStr, toVelocityMetric, rankClassify, velGE, prevEx4,
      ceil_one_033, ceil_one_067, ceil_one_033', ceil_one_067']
  exact zero_prev_velocity_treated_as_new curEx4 prevEx4 "X"
    ⟨"X", none, 7, 7, 1, 7, 49, .fast, 1⟩ ⟨"X", none, 0, 0, 1, 0, 0, .fast, 1⟩
    (hcv ▸ List.mem_singleton.mpr rfl) rfl
    (hpv ▸ List.mem_singleton.mpr rfl) rfl rfl

/-! ### C9: week split of a contiguous 14-day range -/

theorem getLastD_mem : ∀ (l : List ℤ) (d : ℤ), l ≠ [] → l.getLastD d ∈ l := by
  intro l
  induction l with
  | nil => intro d h; exact absurd rfl h
  | cons a rest ih =>
    intro d _
    cases rest with
    | nil => simp
    | cons b t =>
      rw [List.getLastD_cons]
      exact List.mem_cons_of_mem a (ih a (by simp))

theorem le_getLastD_of_sorted :
    ∀ (l : List ℤ), l.Sorted (· ≤ ·) → ∀ x ∈ l, ∀ d, x ≤ l.getLastD d := by
  intro l
  induction l with
  | nil => intro _ x hx; simp at hx
  | cons a rest ih =>
    intro hs x hx d
    rw [List.getLastD_cons]
    rcases List.mem_cons.mp hx with rfl | hx'
    · cases rest with
      | nil => simp
      | cons b t =>
        have hmem : (b :: t).getLastD x ∈ b :: t := getLastD_mem _ _ (by simp)
        exact (List.rel_of_sorted_cons hs _ hmem)
    · exact ih hs.of_cons x hx' a

theorem sorted_sortedDates (s : List DailySales) : (sortedDates s).Sorted (· ≤ ·) :=
  List.sorted_insertionSort _ _

theorem mem_sortedDates (s : List DailySales) (x : ℤ) :
    x ∈ sortedDates s ↔ x ∈ s.map (·.date) := by
  unfold sortedDates
  rw [List.mem_insertionSort, mem_jsSetList]

theorem sortedDates_ne_nil (s : List DailySales) (hne : s ≠ []) : sortedDates s ≠ [] := by
  obtain ⟨b, t, rfl⟩ := List.exists_cons_of_ne_nil hne
  have : b.date ∈ sortedDates (b :: t) := by
    rw [mem_sortedDates]
    exact List.mem_map.mpr ⟨b, List.mem_cons_self b t, rfl⟩
  exact List.ne_nil_of_mem this

theorem latest_date_eq (s : List DailySales) (M : ℤ) (hne : s ≠ [])
    (hub : ∀ b ∈ s, b.date ≤ M) (hex : ∃ b ∈ s, b.date = M) :
    (sortedDates s).getLastD 0 = M := by
  have hnil := sortedDates_ne_nil s hne
  have hmem : (sortedDates s).getLastD 0 ∈ sortedDates s := getLastD_mem _ _ hnil
  have hle : (sortedDates s).getLastD 0 ≤ M := by
    rw [mem_sortedDates] at hmem
    obtain ⟨b, hb, heq⟩ := List.mem_map.mp hmem
    exact heq ▸ hub b hb
  have hM : M ∈ sortedDates s := by
    rw [mem_sortedDates]
    obtain ⟨b, hb, heq⟩ := hex
    exact List.mem_map.mpr ⟨b, hb, heq⟩
  have hge := le_getLastD_of_sorted (sortedDates s) (sorted_sortedDates s) M hM 0
  omega

/-- C9: when the distinct dates of the batch list form the contiguous
14-day calendar range `[a, a+13]`, the `'week'` split returns precisely the
batches of the last 7 days as `current` and the batches of the 7 days
immediately before as `previous`: disjoint, jointly covering every batch,
with no gap and no overlap. -/
theorem split_week_14_days (s : List DailySales) (a : ℤ) (hne : s ≠ [])
    (hrange : ∀ b ∈ s, a ≤ b.date ∧ b.date ≤ a + 13)
    (hfull : ∀ k ∈ List.range 14, ∃ b ∈ s, b.date = a + (k : ℤ)) :
    (∀ b ∈ s, (b ∈ (splitDataByPeriod s .week).1 ↔ a + 7 ≤ b.date ∧ b.date ≤ a + 13))
    ∧ (∀ b ∈ s, (b ∈ (splitDataByPeriod s .week).2 ↔ a ≤ b.date ∧ b.date ≤ a + 6))
    ∧ (∀ b, ¬ (b ∈ (splitDataByPeriod s .week).1 ∧ b ∈ (splitDataByPeriod s .week).2))
    ∧ (∀ b ∈ s, b ∈ (splitDataByPeriod s .week).1 ∨ b ∈ (splitDataByPeriod s .week).2)
    ∧ (∀ b ∈ (splitDataByPeriod s .week).1, b ∈ s)
    ∧ (∀ b ∈ (splitDataByPeriod s .week).2, b ∈ s) := by
  have hlatest : (sortedDates s).getLastD 0 = a + 13 :=
    latest_date_eq s (a + 13) hne (fun b hb => (hrange b hb).2)
      (by
        have h13 := hfull 13 (by decide)
        simpa using h13)
  have hsplit : splitDataByPeriod s .week
      = (s.filter (fun d => decide (a + 7 ≤ d.date) && decide (d.date ≤ a + 13)),
         s.filter (fun d => decide (a ≤ d.date) && decide (d.date ≤ a + 6))) := by
    rw [splitDataByPeriod]
    rw [if_neg (by simp [List.isEmpty_iff, hne])]
    simp only [hlatest]
    rw [if_neg (by simp [List.isEmpty_iff, sortedDates_ne_nil s hne])]
    rw [Prod.mk.injEq]
    refine ⟨?_, ?_⟩ <;>
      · apply List.filter_congr
        intro b _
        congr 1 <;> (rw [decide_eq_decide]; omega)
  rw [hsplit]
  refine ⟨?_, ?_, ?_, ?_, ?_, ?_⟩
  · intro b hb
    simp [List.mem_filter, hb]
  · intro b hb
    simp [List.mem_filter, hb]
  · intro b ⟨h1, h2⟩
    simp only [List.mem_filter, Bool.and_eq_true, decide_eq_true_eq] at h1 h2
    omega
  · intro b hb
    have := hrange b hb
    rcases le_or_lt (a + 7) b.date with h | h
    · left; simp [List.mem_filter, hb]; omega
    · right; simp [List.mem_filter, hb]; omega
  · intro b hb
    exact (List.mem_filter.mp hb).1
  · intro b hb
    exact (List.mem_filter.mp hb).1

/-- Fourteen contiguous empty batches on days `0..13`. -/
def sEx9 : List DailySales := (List.range 14).map (fun i => ⟨(i : ℤ), "PS", [], 0, 0⟩)

/-- Witness for C9 at the concrete contiguous 14-day input. -/
theorem split_week_14_days_witness :
    (∀ b ∈ sEx9, (b ∈ (splitDataByPeriod sEx9 .week).1 ↔ 0 + 7 ≤ b.date ∧ b.date ≤ 0 + 13))
    ∧ (∀ b ∈ sEx9, (b ∈ (splitDataByPeriod sEx9 .week).2 ↔ 0 ≤ b.date ∧ b.date ≤ 0 + 6))
    ∧ (∀ b, ¬ (b ∈ (splitDataByPeriod sEx9 .week).1 ∧ b ∈ (splitDataByPeriod sEx9 .week).2))
    ∧ (∀ b ∈ sEx9, b ∈ (splitDataByPeriod sEx9 .week).1 ∨ b ∈ (splitDataByPeriod sEx9 .week).2)
    ∧ (∀ b ∈ (splitDataByPeriod sEx9 .week).1, b ∈ sEx9)
    ∧ (∀ b ∈ (splitDataByPeriod sEx9 .week).2, b ∈ sEx9) :=
  split_week_14_days sEx9 0 (by decide) (by decide) (by decide)

/-! ### Forecasting engine (`src/unnamed/part_000`) -/

/-- One day of a dense product time series. -/
structure DayData where
  date : ℤ
  quantity : ℚ
  revenue : ℚ
deriving DecidableEq, Repr

/-- `ProductTimeSeries` of `types/index.ts`. -/
structure ProductTimeSeries where
  productName : String
  company : Option String
  dailyData : List DayData
deriving DecidableEq, Repr

/-- Per-product accumulator of `prepareProductTimeSeries`: the company of
the first record seen and the per-date quantity/revenue map. -/
structure PAcc where
  company : Option String
  dailyData : List (ℤ × (ℚ × ℚ))
deriving DecidableEq, Repr

/-- One record's update of the time-series accumulator
(`part_000` lines 17-34). -/
def ptsStep (date : ℤ) (m : List (String × PAcc)) (r : SalesRecord) : List (String × PAcc) :=
  bumpG r.ITNAME
    (fun e =>
      { e with
        dailyData := bumpG date (fun d => (d.1 + r.QTY, d.2 + r.TAXBLEAMT)) (0, 0) e.dailyData })
    ⟨r.company, []⟩ m

/-- The fully accumulated product map of `prepareProductTimeSeries`. -/
def ptsAccum (salesData : List DailySales) : List (String × PAcc) :=
  salesData.foldl (fun m daily => daily.records.foldl (ptsStep daily.date) m) []

/-- Descending-by-total-revenue comparator on `(name, totalRevenue)` pairs
(`(a, b) => b.totalRevenue - a.totalRevenue`). -/
def revTotalGE (a b : String × ℚ) : Prop := b.2 ≤ a.2

instance : DecidableRel revTotalGE := fun a b => inferInstanceAs (Decidable (_ ≤ _))

instance : IsTotal (String × ℚ) revTotalGE := ⟨fun a b => le_total b.2 a.2⟩

instance : IsTrans (String × ℚ) revTotalGE := ⟨fun _ _ _ h1 h2 => le_trans h2 h1⟩

/-- `prepareProductTimeSeries` (`part_000` lines 7-73): aggregate per
product, keep the top `topN` products by total revenue, and build a dense
series over every distinct date with zero-filled gaps. -/
def prepareProductTimeSeries (salesData : List DailySales) (topN : ℕ) :
    List ProductTimeSeries :=
  let productMap := ptsAccum salesData
  let productTotals := productMap.map (fun p => (p.1, (p.2.dailyData.map (fun d => d.2.2)).sum))
  let topProductNames := ((List.insertionSort revTotalGE productTotals).take topN).map (·.1)
  let allDates := sortedDates salesData
  (productMap.filter (fun p : String × PAcc => decide (p.1 ∈ topProductNames))).map (fun p =>
    { productName := p.1
      company := p.2.company
      dailyData := allDates.map (fun date =>
        match lookupA p.2.dailyData date with
        | some v => ⟨date, v.1, v.2⟩
        | none => ⟨date, 0, 0⟩) })

/-- `findMissingDates` (`part_000` lines 78-93): every day of the inclusive
range from the first to the last entry of the (sorted) date list that is
not in the list. -/
def findMissingDates (allDates : List ℤ) : List ℤ :=
  if allDates.length < 2 then []
  else
    let start := allDates.headI
    let last := allDates.getLastD 0
    ((List.range (last + 1 - start).toNat).map (fun i => start + ((i : ℕ) : ℤ))).filter
      (fun d => decide (d ∉ allDates))

/-- `calculateMovingAverage` (`part_000` lines 99-148); the unused
`_targetIndex` parameter is omitted.  Returns the weighted average and the
rounded confidence.  `slice(-actualWindow)` is modelled by
`drop (length - actualWindow)`; the `actualWindow = 0` case (where the two
differ) is caught by the early return exactly as in the source. -/
def calculateMovingAverage (values : List ℚ) (windowSize : ℕ) : ℚ × ℤ :=
  if values.length = 0 then (0, 0)
  else
    let actualWindow := min windowSize values.length
    if actualWindow = 0 then (0, 0)
    else
      let window := values.drop (values.length - actualWindow)
      let weights := (List.range window.length).map (fun i => ((i : ℕ) : ℚ) + 1)
      let totalWeight := weights.sum
      let weightedSum := (List.zipWith (fun v w => v * w) window weights).sum
      let weightedAvg := weightedSum / totalWeight
      let dataQualityScore := min ((actualWindow : ℚ) / (windowSize : ℚ)) 1 * 100
      let mean := window.sum / (window.length : ℚ)
      let variance := (window.map (fun v => (v - mean) ^ 2)).sum / (window.length : ℚ)
      let cv := if 0 < mean then sqrtQ variance / mean else 1
      let variabilityScore := max 0 ((1 - cv) * 100)
      let confidence := min ((dataQualityScore + variabilityScore) / 2) 100
      (weightedAvg, roundJS confidence)

/-- `ensembleMovingAverage` (`part_000` lines 154-172). -/
def ensembleMovingAverage (values : List ℚ) : ℚ × ℤ :=
  let results := [7, 14, 30].map (fun w => calculateMovingAverage values w)
  let totalConfidence := (results.map (·.2)).sum
  if totalConfidence = 0 then (0, 0)
  else
    ((results.map (fun r => r.1 * (r.2 : ℚ))).sum / (totalConfidence : ℚ),
     roundJS ((totalConfidence : ℚ) / (results.length : ℚ)))

/-- One forecast line of `ProductForecast` (revenue, quantity, confidence,
target date). -/
structure ForecastEntry where
  revenue : ℚ
  quantity : ℚ
  confidence : ℤ
  targetDate : ℤ
deriving DecidableEq, Repr

/-- `ProductForecast` of `types/index.ts`; the nested `historicalMetrics`
object is flattened into the four trailing fields. -/
structure ProductForecast where
  productName : String
  company : Option String
  oneDayForecast : ForecastEntry
  sevenDayForecast : ForecastEntry
  avgDailyRevenue : ℚ
  avgDailyQuantity : ℚ
  stdDevRevenue : ℚ
  stdDevQuantity : ℚ
  daysOfData : ℕ
deriving DecidableEq, Repr

/-- `forecastProduct` (`part_000` lines 177-251).  The source reads
`dailyData[dailyData.length - 1].date`, which throws on an empty series;
every caller passes a non-empty series, so the `getLastD` default is never
read. -/
def forecastProduct (ts : ProductTimeSeries) : ProductForecast :=
  let revenues := ts.dailyData.map (·.revenue)
  let quantities := ts.dailyData.map (·.quantity)
  let daysOfData := ts.dailyData.length
  let avgDailyRevenue := revenues.sum / (daysOfData : ℚ)
  let avgDailyQuantity := quantities.sum / (daysOfData : ℚ)
  let revenueVariance := (revenues.map (fun r => (r - avgDailyRevenue) ^ 2)).sum / (daysOfData : ℚ)
  let quantityVariance :=
    (quantities.map (fun q => (q - avgDailyQuantity) ^ 2)).sum / (daysOfData : ℚ)
  let lastDate := (ts.dailyData.getLastD ⟨0, 0, 0⟩).date
  let oneR := calculateMovingAverage revenues 7
  let oneQ := calculateMovingAverage quantities 7
  let sevenR := ensembleMovingAverage revenues
  let sevenQ := ensembleMovingAverage quantities
  { productName := ts.productName
    company := ts.company
    oneDayForecast := ⟨round2 oneR.1, round2 oneQ.1, min oneR.2 oneQ.2, lastDate + 1⟩
    sevenDayForecast :=
      ⟨round2 (sevenR.1 * 7), round2 (sevenQ.1 * 7), min sevenR.2 sevenQ.2, lastDate + 7⟩
    avgDailyRevenue := round2 avgDailyRevenue
    avgDailyQuantity := round2 avgDailyQuantity
    stdDevRevenue := round2 (sqrtQ revenueVariance)
    stdDevQuantity := round2 (sqrtQ quantityVariance)
    daysOfData := daysOfData }

/-- Data-quality grade of the forecast summary. -/
inductive DataQuality where
  | excellent
  | good
  | fair
  | poor
deriving DecidableEq, Repr

/-- The threshold chain of `generateForecastSummary` lines 282-286. -/
def dataQualityOfPercent (p : ℚ) : DataQuality :=
  if p < 5 then .excellent else if p < 15 then .good else if p < 30 then .fair else .poor

/-- One aggregate line of the summary's `totalForecast`. -/
structure TotalLine where
  revenue : ℚ
  quantity : ℚ
  avgConfidence : ℤ
deriving DecidableEq, Repr

/-- `metadata` of `ForecastSummary`. -/
structure ForecastMetadata where
  dataQuality : DataQuality
  totalHistoricalDays : ℕ
  missingDates : List ℤ
  warnings : List String
deriving DecidableEq, Repr

/-- `ForecastSummary` of `types/index.ts`; the wall-clock `generatedAt`
timestamp is omitted (not meaningful in the embedding), and
`forecastPeriod` is flattened into the two leading target-date fields. -/
structure ForecastSummary where
  oneDayTarget : ℤ
  sevenDayTarget : ℤ
  oneDayTotal : TotalLine
  sevenDayTotal : TotalLine
  productForecasts : List ProductForecast
  metadata : ForecastMetadata
deriving DecidableEq, Repr

/-- `generateForecastSummary` (`part_000` lines 256-326).  The source reads
`productForecasts[0].oneDayForecast` while building the returned object,
which throws a `TypeError` when no product forecast exists; that throwing
case is modelled as `none`. -/
def generateForecastSummary (salesData : List DailySales) (topN : ℕ) :
    Option ForecastSummary :=
  let productForecasts := (prepareProductTimeSeries salesData topN).map forecastProduct
  let allDates := sortedDates salesData
  let missingDates := findMissingDates allDates
  let missingPercent := ((missingDates.length : ℚ) / (allDates.length : ℚ)) * 100
  let warnings :=
    (if allDates.length < 30 then
        ["Limited historical data (< 30 days). Forecasts may be less accurate."]
      else [])
    ++ (if 0 < missingDates.length then
        [toString missingDates.length ++ " dates missing from historical data."]
      else [])
  match productForecasts.head? with
  | none => none
  | some firstForecast =>
    some
      { oneDayTarget := firstForecast.oneDayForecast.targetDate
        sevenDayTarget := firstForecast.sevenDayForecast.targetDate
        oneDayTotal :=
          { revenue := round2 (productForecasts.map (·.oneDayForecast.revenue)).sum
            quantity := round2 (productForecasts.map (·.oneDayForecast.quantity)).sum
            avgConfidence :=
              roundJS (((productForecasts.map (·.oneDayForecast.confidence)).sum : ℚ)
                / (productForecasts.length : ℚ)) }
        sevenDayTotal :=
          { revenue := round2 (productForecasts.map (·.sevenDayForecast.revenue)).sum
            quantity := round2 (productForecasts.map (·.sevenDayForecast.quantity)).sum
            avgConfidence :=
              roundJS (((productForecasts.map (·.sevenDayForecast.confidence)).sum : ℚ)
                / (productForecasts.length : ℚ)) }
        productForecasts := productForecasts
        metadata :=
          { dataQuality := dataQualityOfPercent missingPercent
            totalHistoricalDays := allDates.length
            missingDates := missingDates
            warnings := warnings } }

/-- `ForecastValidation` of `types/index.ts`, metrics flattened. -/
structure ForecastValidation where
  productName : String
  mae : ℚ
  mape : ℚ
  rmse : ℚ
  testPeriodDays : ℕ
deriving DecidableEq, Repr

/-- `backtestForecast` (`part_000` lines 332-383).  `slice(0, -t)` and
`slice(-t)` are the empty list and the whole list respectively when
`t = 0`, exactly as in JavaScript. -/
def backtestForecast (ts : ProductTimeSeries) (testDays : ℕ) : ForecastValidation :=
  if ts.dailyData.length < testDays + 7 then
    ⟨ts.productName, 0, 0, 0, 0⟩
  else
    let trainData :=
      if testDays = 0 then [] else ts.dailyData.take (ts.dailyData.length - testDays)
    let testData :=
      if testDays = 0 then ts.dailyData else ts.dailyData.drop (ts.dailyData.length - testDays)
    let forecast := calculateMovingAverage (trainData.map (·.revenue)) 7
    let errors := testData.map (fun rec => |rec.revenue - forecast.1|)
    let percentErrors := (testData.filter (fun rec => decide (0 < rec.revenue))).map
      (fun rec => |rec.revenue - forecast.1| / rec.revenue * 100)
    let mae := errors.sum / (errors.length : ℚ)
    let mape :=
      if 0 < percentErrors.length then percentErrors.sum / (percentErrors.length : ℚ) else 0
    let rmse := sqrtQ ((errors.map (fun e => e * e)).sum / (errors.length : ℚ))
    ⟨ts.productName, round2 mae, round2 mape, round2 rmse, testDays⟩

/-! ### C1: empty input crashes `generateForecastSummary` -/

/-- C1: on the empty batch list there are no product forecasts, and the
source's read of `productForecasts[0].oneDayForecast` throws a `TypeError`
instead of returning a zero/empty summary; the embedding returns `none`
exactly on that throwing path. -/
theorem generateForecastSummary_empty_throws (topN : ℕ) :
    generateForecastSummary [] topN = none := rfl

/-! ### C8: backtest sentinel on short histories -/

/-- C8: with fewer than `testDays + 7` data points `backtestForecast`
returns exactly the all-zero sentinel with `testPeriodDays = 0` (no error);
with at least `testDays + 7` points it reports `testPeriodDays = testDays`. -/
theorem backtest_sentinel (ts : ProductTimeSeries) (testDays : ℕ) :
    (ts.dailyData.length < testDays + 7
      → backtestForecast ts testDays = ⟨ts.productName, 0, 0, 0, 0⟩)
    ∧ (testDays + 7 ≤ ts.dailyData.length
      → (backtestForecast ts testDays).testPeriodDays = testDays) := by
  constructor
  · intro h
    rw [backtestForecast, if_pos h]
  · intro h
    rw [backtestForecast, if_neg (by omega)]

/-- Short series (3 days) for the C8 witness. -/
def tsShort : ProductTimeSeries := ⟨"A", none, [⟨0, 1, 1⟩, ⟨1, 1, 1⟩, ⟨2, 1, 1⟩]⟩

/-- Long series (14 days) for the C8 witness. -/
def tsLong : ProductTimeSeries :=
  ⟨"B", none, (List.range 14).map (fun i => ⟨(i : ℤ), 1, 1⟩)⟩

/-- Witness for C8: both branches at concrete inputs. -/
theorem backtest_sentinel_witness :
    (tsShort.dailyData.length < 7 + 7
      ∧ backtestForecast tsShort 7 = ⟨"A", 0, 0, 0, 0⟩)
    ∧ (7 + 7 ≤ tsLong.dailyData.length
      ∧ (backtestForecast tsLong 7).testPeriodDays = 7) :=
  ⟨⟨by decide, (backtest_sentinel tsShort 7).1 (by decide)⟩,
   ⟨by decide, (backtest_sentinel tsLong 7).2 (by decide)⟩⟩

/-! ### C7: moving average of a constant series -/

theorem sqrtQ_zero : sqrtQ 0 = 0 := by
  simp [sqrtQ]

theorem roundJS_fifty : roundJS 50 = 50 := by
  unfold roundJS
  rw [Int.floor_eq_iff] <;> norm_num

theorem roundJS_seventyfive : roundJS 75 = 75 := by
  unfold roundJS
  rw [Int.floor_eq_iff] <;> norm_num

theorem roundJS_hundred : roundJS 100 = 100 := by
  unfold roundJS
  rw [Int.floor_eq_iff] <;> norm_num

theorem range7_eq : List.range 7 = [0, 1, 2, 3, 4, 5, 6] := rfl

theorem range30_eq :
    List.range 30 = [0, 1, 2, 3, 4, 5, 6, 7, 8, 9, 10, 11, 12, 13, 14, 15, 16, 17, 18, 19,
      20, 21, 22, 23, 24, 25, 26, 27, 28, 29] := rfl

/-- C7 counterexample: (a) a constant **zero** series of 30 days at window 7
yields confidence 50, not 100 (zero mean means the coefficient of variation
is defined as 1, so the variability score is 0); (b) a constant positive
series of 30 days at window **60** yields confidence 75, not 100 (the
data-quality score is `30/60 × 100 = 50`).  In both cases the claim's
`confidence = 100` for "any window" fails. -/
theorem movingAverage_constant_counterexample :
    calculateMovingAverage (List.replicate 30 (0 : ℚ)) 7 = (0, 50)
    ∧ calculateMovingAverage (List.replicate 30 (5 : ℚ)) 60 = (5, 75) := by
  constructor <;>
  · norm_num [calculateMovingAverage, List.replicate, range7_eq, range30_eq, sqrtQ,
      roundJS_fifty, roundJS_seventyfive, Nat.min_def, min_def, max_def]

theorem drop_replicate_q (v : ℚ) : ∀ (k m : ℕ), (List.replicate m v).drop k = List.replicate (m - k) v := by
  intro k
  induction k with
  | zero => intro m; simp
  | succ k ih =>
    intro m
    cases m with
    | zero => simp
    | succ m =>
      rw [List.replicate_succ, List.drop_succ_cons, ih, Nat.succ_sub_succ]

theorem sum_map_mul_left_q (v : ℚ) : ∀ l : List ℚ, (l.map (fun x => v * x)).sum = v * l.sum := by
  intro l
  induction l with
  | nil => simp
  | cons x rest ih => simp [ih, mul_add]

theorem zipWith_mul_replicate (v : ℚ) :
    ∀ l : List ℚ,
      List.zipWith (fun a b => a * b) (List.replicate l.length v) l
        = l.map (fun x => v * x) := by
  intro l
  induction l with
  | nil => rfl
  | cons x rest ih =>
    rw [List.length_cons, List.replicate_succ, List.zipWith_cons_cons, ih, List.map_cons]

/-- C7 amended: for a constant series of **positive** value `v` with at
least 30 days and a window of size between 1 and the series length,
`calculateMovingAverage` returns value `v` and confidence 100.  (The claim
fails for `v = 0` and for windows longer than the series.) -/
theorem movingAverage_constant (v : ℚ) (hv : 0 < v) (n w : ℕ) (hn : 30 ≤ n)
    (hw1 : 1 ≤ w) (hwn : w ≤ n) :
    calculateMovingAverage (List.replicate n v) w = (v, 100) := by
  have hwq : ((w : ℚ)) ≠ 0 := Nat.cast_ne_zero.mpr (by omega)
  have hmin : w ⊓ n = w := Nat.min_eq_left hwn
  have hdrop : (List.replicate n v).drop (n - w) = List.replicate w v := by
    rw [drop_replicate_q]
    congr 1
    omega
  have hWlen : ((List.range w).map (fun i => ((i : ℕ) : ℚ) + 1)).length = w := by
    rw [List.length_map, List.length_range]
  have hWpos : 0 < ((List.range w).map (fun i => ((i : ℕ) : ℚ) + 1)).sum := by
    apply List.sum_pos
    · intro x hx
      obtain ⟨i, _, rfl⟩ := List.mem_map.mp hx
      have hi : (0 : ℚ) ≤ (i : ℕ) := Nat.cast_nonneg i
      linarith
    · simp only [ne_eq, List.map_eq_nil_iff, List.range_eq_nil]
      omega
  have hzip : (List.zipWith (fun a b => a * b) (List.replicate w v)
      ((List.range w).map (fun i => ((i : ℕ) : ℚ) + 1))).sum
      = v * ((List.range w).map (fun i => ((i : ℕ) : ℚ) + 1)).sum := by
    have h := zipWith_mul_replicate v ((List.range w).map (fun i => ((i : ℕ) : ℚ) + 1))
    rw [hWlen] at h
    rw [h, sum_map_mul_left_q]
  have hmean : (List.replicate w v).sum / ((w : ℕ) : ℚ) = v := by
    rw [List.sum_replicate, nsmul_eq_mul]
    exact mul_div_cancel_left₀ v hwq
  have hvar : ((List.replicate w v).map (fun x => (x - v) ^ 2)).sum / ((w : ℕ) : ℚ) = 0 := by
    rw [List.map_replicate]
    simp
  simp only [calculateMovingAverage, List.length_replicate, hmin]
  rw [if_neg (by omega : ¬ n = 0), if_neg (by omega : ¬ w = 0)]
  simp only [hdrop, List.length_replicate, hzip, hmean, hvar, sqrtQ_zero, if_pos hv, zero_div,
    div_self hwq, mul_div_cancel_right₀ v hWpos.ne']
  norm_num [roundJS_hundred]

/-- Witness for the amended C7 at `v = 1`, 30 days, window 7. -/
theorem movingAverage_constant_witness :
    (0 : ℚ) < 1 ∧ calculateMovingAverage (List.replicate 30 (1 : ℚ)) 7 = (1, 100) :=
  ⟨by norm_num, movingAverage_constant 1 (by norm_num) 30 7 (by omega) (by omega) (by omega)⟩

/-! ### C2: the data-quality denominator -/

/-- Concrete input for C2: one product sold on days 0, 1 and 3 — day 2 is
missing, so the inclusive calendar range has 4 days but only 3 are
observed. -/
def c2in : List DailySales :=
  [⟨0, "PS", [⟨"h", "A", 1, 1, 0, none⟩], 1, 1⟩,
   ⟨1, "PS", [⟨"h", "A", 1, 1, 0, none⟩], 1, 1⟩,
   ⟨3, "PS", [⟨"h", "A", 1, 1, 0, none⟩], 1, 1⟩]

theorem sortedDates_c2in : sortedDates c2in = [0, 1, 3] := by decide

theorem findMissing_c2in : findMissingDates [0, 1, 3] = [2] := by decide

theorem prepare_c2in :
    prepareProductTimeSeries c2in 10
      = [⟨"A", none, [⟨0, 1, 1⟩, ⟨1, 1, 1⟩, ⟨3, 1, 1⟩]⟩] := by
  norm_num [prepareProductTimeSeries, ptsAccum, ptsStep, bumpG, sortedDates, jsSetList,
    dedupAux, revTotalGE, lookupA, List.find?, c2in]

/-- C2 counterexample: on `c2in` the code grades data quality `poor`
(1 missing day over **3 observed dates** is ≈33.3% ≥ 30%), while the
claim's formula — missing days over the **4-day inclusive calendar
range** — gives 25%, i.e. `fair`. -/
theorem forecast_quality_counterexample :
    (generateForecastSummary c2in 10).map (fun sm => sm.metadata.dataQuality)
        = some DataQuality.poor
    ∧ (findMissingDates (sortedDates c2in)).length = 1
    ∧ (sortedDates c2in).length = 3
    ∧ (sortedDates c2in).getLastD 0 - (sortedDates c2in).headI + 1 = 4
    ∧ dataQualityOfPercent ((1 : ℚ) / 4 * 100) = DataQuality.fair := by
  refine ⟨?_, ?_, ?_, ?_, ?_⟩
  · simp only [generateForecastSummary, prepare_c2in, List.map_cons, List.map_nil,
      List.head?_cons]
    norm_num [sortedDates_c2in, findMissing_c2in, dataQualityOfPercent]
  · rw [sortedDates_c2in, findMissing_c2in]
    rfl
  · rw [sortedDates_c2in]
    rfl
  · rw [sortedDates_c2in]
    rfl
  · norm_num [dataQualityOfPercent]

/-- C2 amended: whenever `generateForecastSummary` returns a summary, its
data-quality grade is determined by the missing-day count divided by the
number of **distinct observed dates** (not by the length of the full
inclusive calendar range), times 100, against the thresholds
`<5` excellent / `<15` good / `<30` fair / else poor. -/
theorem forecast_data_quality (s : List DailySales) (topN : ℕ) (sm : ForecastSummary)
    (h : generateForecastSummary s topN = some sm) :
    sm.metadata.dataQuality
      = dataQualityOfPercent
          (((findMissingDates (sortedDates s)).length : ℚ)
            / ((sortedDates s).length : ℚ) * 100) := by
  simp only [generateForecastSummary] at h
  cases hh : ((prepareProductTimeSeries s topN).map forecastProduct).head? with
  | none =>
    rw [hh] at h
    simp at h
  | some f =>
    rw [hh] at h
    simp only [Option.some.injEq] at h
    rw [← h]

/-- Witness for the amended C2 at the concrete input `c2in`. -/
theorem forecast_data_quality_witness :
    ∃ sm, generateForecastSummary c2in 10 = some sm
      ∧ sm.metadata.dataQuality
          = dataQualityOfPercent
              (((findMissingDates (sortedDates c2in)).length : ℚ)
                / ((sortedDates c2in).length : ℚ) * 100) := by
  have hsum : ∃ sm, generateForecastSummary c2in 10 = some sm := by
    simp only [generateForecastSummary, prepare_c2in, List.map_cons, List.map_nil,
      List.head?_cons]
    exact ⟨_, rfl⟩
  obtain ⟨sm, hsm⟩ := hsum
  exact ⟨sm, hsm, forecast_data_quality c2in 10 sm hsm⟩
